import Mathlib

/- Shallow embedding of the citation-graph builder in
src/utils/reviz_graph_model.py. External collaborators are modelled as
explicit function parameters: the fuzzy similarity functions of the
thefuzz library (simFull for fuzz.ratio, simPart for fuzz.partial_ratio),
the md5 hex digest of hashlib, the file system, the Grobid TEI XML
parser and the interactive standard-input stream. Everything else is a
direct translation of the Python source. -/

namespace Reviz

/- Python str.upper restricted to ASCII, as used on titles and author names. -/
def str_upper (s : String) : String := s.map Char.toUpper

/- Whitespace class of the Python regex escape backslash-s (ASCII part). -/
def is_py_space (c : Char) : Bool :=
  c = ' ' || c = '\t' || c = '\n' || c = '\r' || c = '\x0b' || c = '\x0c'

/- Translation of the regex search in find_doi. The pattern is
two digits, a dot, one or more digits, a slash, one or more non-space
characters. The greedy digit run followed by the mandatory slash needs no
backtracking: shortening the digit run leaves a digit where the slash is
required. doi_match_at tries the pattern anchored at the head of the list. -/
def doi_match_at (l : List Char) : Option (List Char) :=
  match l with
  | c1 :: c2 :: c3 :: rest =>
    if c1.isDigit && c2.isDigit && c3 = '.' then
      let ds := rest.takeWhile Char.isDigit
      let r2 := rest.dropWhile Char.isDigit
      if ds = [] then none
      else
        match r2 with
        | '/' :: r3 =>
          let ws := r3.takeWhile (fun c => !(is_py_space c))
          if ws = [] then none else some (c1 :: c2 :: c3 :: (ds ++ '/' :: ws))
        | _ => none
    else none
  | _ => none

/- re.search scans for the leftmost position where the pattern matches. -/
def doi_search : List Char → Option (List Char)
  | [] => none
  | c :: t =>
    match doi_match_at (c :: t) with
    | some m => some m
    | none => doi_search t

/- find_doi of the source: None propagates, otherwise the first match of the
DOI pattern is returned, or None when there is no match. -/
def find_doi : Option String → Option String
  | none => none
  | some s => (doi_search s.data).map String.mk

/- Character class of the no-comma author pattern: A-Z, a-z and hyphen. -/
def is_name_char1 (c : Char) : Bool := c.isAlpha || c = '-'

/- Character class of the comma author pattern: A-Z, a-z, hyphen and space. -/
def is_name_char2 (c : Char) : Bool := c.isAlpha || c = '-' || c = ' '

/- The separator part of the no-comma pattern of find_author: one of
" +and +", " +AND +" or end of string, tried in this order. The dollar
anchor of Python also matches just before a single trailing newline.
Given input the position right after a maximal name-character run, returns
the rest of the input after the separator when one of the alternatives
matches. Backtracking inside the space runs never helps because the
literal separator words start with a non-space character. -/
def p1_sep_or_end (l : List Char) : Option (List Char) :=
  match l with
  | [] => some []
  | ['\n'] => some ['\n']
  | _ =>
    if l.takeWhile (fun c => c = ' ') = [] then none
    else
      match l.dropWhile (fun c => c = ' ') with
      | 'a' :: 'n' :: 'd' :: r =>
        if r.takeWhile (fun c => c = ' ') = [] then none
        else some (r.dropWhile (fun c => c = ' '))
      | 'A' :: 'N' :: 'D' :: r =>
        if r.takeWhile (fun c => c = ' ') = [] then none
        else some (r.dropWhile (fun c => c = ' '))
      | _ => none

/- One attempted match of the no-comma pattern at the current position.
The name group is a maximal nonempty run of name characters; shortening it
cannot rescue a failed separator, because the next character would be a
name character where the separator alternatives need a space or the end. -/
def p1_match_at (l : List Char) : Option (List Char × List Char) :=
  let name := l.takeWhile is_name_char1
  if name = [] then none
  else
    match p1_sep_or_end (l.drop name.length) with
    | some rest => some (name, rest)
    | none => none

/- re.findall scanning loop for the no-comma pattern: try a match at every
position, restart after the end of each match. Every match consumes at
least one character, so the input length bounds the number of steps. -/
def p1_go : Nat → List Char → List (List Char)
  | 0, _ => []
  | _ + 1, [] => []
  | fuel + 1, c :: t =>
    match p1_match_at (c :: t) with
    | some (name, rest) => name :: p1_go fuel rest
    | none => p1_go fuel t

def p1_find_all (l : List Char) : List (List Char) := p1_go (l.length + 1) l

/- The "and +" and "AND +" alternatives of the comma pattern, followed by
the spot where the name group must start. The trailing space run is greedy
but backtracks so that the name group keeps at least one character; since
space is itself a name character, the only useful backtrack leaves exactly
one space to become the whole name group. -/
def p2_spaces (r : List Char) : Option (List Char) :=
  let sp := r.takeWhile (fun c => c = ' ')
  let rest := r.dropWhile (fun c => c = ' ')
  if sp = [] then none
  else
    match rest with
    | c :: _ => if is_name_char2 c then some rest
                else if 2 ≤ sp.length then some (' ' :: rest) else none
    | [] => if 2 ≤ sp.length then some [' '] else none

def p2_try_and (l : List Char) : Option (List Char) :=
  match l with
  | 'a' :: 'n' :: 'd' :: r => p2_spaces r
  | 'A' :: 'N' :: 'D' :: r => p2_spaces r
  | _ => none

def p2_via_sep (l : List Char) : Option (List Char × List Char) :=
  match p2_try_and l with
  | some rest =>
    let name := rest.takeWhile is_name_char2
    some (name, rest.drop name.length)
  | none => none

/- One attempted match of the comma pattern. The caret alternative is only
available at position zero and is tried first; when its name group is
empty the alternation backtracks to the literal separator alternatives. -/
def p2_match_at (atStart : Bool) (l : List Char) : Option (List Char × List Char) :=
  if atStart then
    let name := l.takeWhile is_name_char2
    if name = [] then p2_via_sep l else some (name, l.drop name.length)
  else p2_via_sep l

def p2_go : Nat → Bool → List Char → List (List Char)
  | 0, _, _ => []
  | _ + 1, _, [] => []
  | fuel + 1, atStart, c :: t =>
    match p2_match_at atStart (c :: t) with
    | some (name, rest) => name :: p2_go fuel false rest
    | none => p2_go fuel false t

def p2_find_all (l : List Char) : List (List Char) := p2_go (l.length + 1) true l

/- find_author of the source: the comma-free pattern when the raw field
holds no comma, otherwise the comma pattern. -/
def find_author (author_json : String) : List String :=
  if ',' ∈ author_json.data then
    (p2_find_all author_json.data).map String.mk
  else
    (p1_find_all author_json.data).map String.mk

/- Title normalization inside citation_matching: both brace characters are
removed, then the result is upper-cased. -/
def clean_title (t : String) : String :=
  str_upper (String.mk (t.data.filter (fun c => !(c = '\x7b' || c = '\x7d'))))

/- find_matching_authors of the source, with fuzz.ratio passed in as
simFull. The loop is a left fold over the first author list carrying the
counter and the number. -/
def find_matching_authors (simFull : String → String → Nat)
    (artauthors otherauthors : List String) : Nat × Int :=
  let number : Int := (artauthors.length : Int) + (otherauthors.length : Int)
  if artauthors.length = 0 ∨ otherauthors.length = 0 then (0, number)
  else
    artauthors.foldl (fun acc author =>
      if author = artauthors.headD "" then
        if author = otherauthors.headD "" then (acc.1 + 5, acc.2 - 1)
        else if otherauthors.any (fun a => 95 ≤ simFull (str_upper author) (str_upper a)) then
          (acc.1 + 3, acc.2 - 1)
        else acc
      else if author = otherauthors.headD "" then (acc.1 + 3, acc.2 - 1)
      else if otherauthors.any (fun a => 95 ≤ simFull (str_upper author) (str_upper a)) then
        (acc.1 + 1, acc.2 - 1)
      else acc) (0, number)

/- A memoization key of ask_user: the two normalized titles and the two
author lists, compared structurally like the Python tuple. -/
abbrev Question := String × String × List String × List String

/- The mutable interactive state: the global user_answers list together
with the pending standard-input lines. Reading past the end of the input
stream is modelled as a non-affirmative answer. -/
structure Session where
  user_answers : List (Question × Bool)
  pending_inputs : List String
deriving DecidableEq, Repr

/- The linear scan of user_answers inside ask_user: the first entry whose
question equals the key wins. -/
def find_answer (q : Question) : List (Question × Bool) → Option Bool
  | [] => none
  | ua :: rest => if ua.1 = q then some ua.2 else find_answer q rest

/- ask_user of the source. When without_interactive_queries holds, False is
returned at once. Otherwise the answer cache is consulted; on a miss the
user is prompted, one input line is consumed, only the exact answer y is
affirmative, and the new answer is appended to the cache. -/
def ask_user (without_interactive_queries : Bool) (q : Question) (s : Session) :
    Bool × Session :=
  if without_interactive_queries then (false, s)
  else
    match find_answer q s.user_answers with
    | some a => (a, s)
    | none =>
      if s.pending_inputs.headD "" = "y" then
        (true, ⟨s.user_answers ++ [(q, true)], s.pending_inputs.tail⟩)
      else
        (false, ⟨s.user_answers ++ [(q, false)], s.pending_inputs.tail⟩)

/- citation_matching of the source. The two DOI fields are first run
through find_doi; equal extracted DOIs decide the match at once. Otherwise,
when both titles are strings, the normalized titles are compared with
fuzz.ratio and fuzz.partial_ratio and the decision tree of the source is
followed, falling back to ask_user on the ambiguous branches. -/
def citation_matching (simFull simPart : String → String → Nat)
    (doi_art doi_ref : Option String) (title_art title_ref : Option String)
    (author_art authors_ref : List String)
    (without_interactive_queries : Bool) (s : Session) : Bool × Session :=
  if find_doi doi_art = find_doi doi_ref ∧ (find_doi doi_art).isSome
      ∧ (find_doi doi_ref).isSome then
    (true, s)
  else
    match title_art, title_ref with
    | some ta, some tr =>
      if 90 < simFull (clean_title ta) (clean_title tr)
          ∨ (95 < simPart (clean_title ta) (clean_title tr)
              ∧ 70 < simFull (clean_title ta) (clean_title tr)) then
        if 2 ≤ (find_matching_authors simFull author_art authors_ref).1 then (true, s)
        else ask_user without_interactive_queries
          (clean_title ta, clean_title tr, author_art, authors_ref) s
      else if 90 < simPart (clean_title ta) (clean_title tr)
          ∧ 60 < simFull (clean_title ta) (clean_title tr) then
        ask_user without_interactive_queries
          (clean_title ta, clean_title tr, author_art, authors_ref) s
      else (false, s)
    | _, _ => (false, s)

/- One bibliography entry as loaded from the json export. The author field
is the raw bibtex author string; year is already converted to an integer
where present, folding the int() coercion of the source into the model. -/
structure Article where
  bibtex_key : String
  title : Option String
  author : String
  year : Option Int
  doi : Option String
  file : Option String
deriving DecidableEq, Repr

def default_article : Article := ⟨"", none, "", none, none, none⟩

/- One reference extracted by Grobid from a TEI document: the text of its
title element, the text of its doi idno element when present, and the
texts of its surname elements. -/
structure Reference where
  title : Option String
  doi : Option String
  authors : List String
deriving DecidableEq, Repr

/- One msg.fail record emitted while building edges. -/
inductive Warning where
  | teiNotFound (title : Option String)
  | teiEmpty (title : Option String)
deriving DecidableEq, Repr

/- One entry of the articles list of the output graph. -/
structure GraphArticle where
  title : Option String
  author : List String
  key : String
  year : Option Int
deriving DecidableEq, Repr

/- One directed edge of the output graph, from the citing article to the
cited article, both named by bibtex key. -/
structure Edge where
  frm : String
  toKey : String
deriving DecidableEq, Repr

/- The output of build_graph_model before it is serialized to json. -/
structure Graph where
  years : List Int
  year_arts : List (Int × List String)
  articles : List GraphArticle
  edges : List Edge
deriving DecidableEq, Repr

/- key_to_md5 of the source, with the hashlib hex digest passed in as
md5hex: the first six characters of the digest, with the letter a appended
when they are all digits. -/
def key_to_md5 (md5hex : String → String) (key : String) : String :=
  let shorthd := (md5hex key).take 6
  if shorthd ≠ "" ∧ shorthd.data.all Char.isDigit then shorthd ++ "a" else shorthd

/- The key rewriting pass at the top of build_graph_model, applied only
when original_bibtex_keys is false. -/
def apply_keys (md5hex : String → String) (original_bibtex_keys : Bool)
    (articles : List Article) : List Article :=
  if original_bibtex_keys then articles
  else articles.map (fun a => { a with bibtex_key := key_to_md5 md5hex a.bibtex_key })

/- os.path.basename for slash-separated paths. -/
def basename (s : String) : String :=
  String.mk (s.data.reverse.takeWhile (fun c => c ≠ '/')).reverse

/- os.path.join for the two-argument uses in the source. -/
def path_join (d f : String) : String :=
  if f.data.head? = some '/' then f
  else if d = "" then f
  else if d.data.getLast? = some '/' then d ++ f else d ++ "/" ++ f

/- The TEI filename computation of the source: the basename of the pdf
path with its last four characters removed, the tei.xml suffix appended,
joined to the tei directory. -/
def tei_path (teiDir f : String) : String :=
  path_join teiDir (String.dropRight (basename f) 4 ++ ".tei.xml")

/- The identity test of the candidate loop: art title is article title.
The json loader creates a fresh string object per article, so two title
objects are the same Python object exactly when the candidate is the
source entry itself, or when both titles are the None object. -/
def title_identical (arts : List Article) (i j : Nat) : Bool :=
  decide (i = j) ||
    (decide ((arts.getD i default_article).title = none)
      && decide ((arts.getD j default_article).title = none))

/- The call to citation_matching made by the candidate loop for candidate
index j of reference r. -/
def engine (simFull simPart : String → String → Nat) (auto : Bool)
    (arts : List Article) (r : Reference) (j : Nat) (s : Session) : Bool × Session :=
  citation_matching simFull simPart (arts.getD j default_article).doi r.doi
    (arts.getD j default_article).title r.title
    (find_author (arts.getD j default_article).author) r.authors auto s

/- The candidate loop for one extracted reference: scan the articles in
order, skip the candidate whose title is the same object as the source
title, and on the first match append one edge and break out of the loop. -/
def ref_edges_go (simFull simPart : String → String → Nat) (auto : Bool)
    (arts : List Article) (i : Nat) (r : Reference) :
    List Nat → Session → List Edge × Session
  | [], s => ([], s)
  | j :: rest, s =>
    if title_identical arts i j then
      ref_edges_go simFull simPart auto arts i r rest s
    else
      let res := engine simFull simPart auto arts r j s
      if res.1 then
        ([⟨(arts.getD i default_article).bibtex_key,
           (arts.getD j default_article).bibtex_key⟩], res.2)
      else ref_edges_go simFull simPart auto arts i r rest res.2

def ref_edges (simFull simPart : String → String → Nat) (auto : Bool)
    (arts : List Article) (i : Nat) (r : Reference) (s : Session) :
    List Edge × Session :=
  ref_edges_go simFull simPart auto arts i r (List.range arts.length) s

/- The loop over all biblStruct references of one parsed TEI document. -/
def refs_loop (simFull simPart : String → String → Nat) (auto : Bool)
    (arts : List Article) (i : Nat) :
    List Reference → List Edge → Session → List Edge × Session
  | [], es, s => (es, s)
  | r :: rest, es, s =>
    let p := ref_edges simFull simPart auto arts i r s
    refs_loop simFull simPart auto arts i rest (es ++ p.1) p.2

/- The body of the edge loop for the source article at index i: skip
silently when the file field is None, warn and skip when the TEI file does
not exist, warn and skip when its content is one of the two empty-parse
sentinels, otherwise match every extracted reference. -/
def process_article (simFull simPart : String → String → Nat) (auto : Bool)
    (fs : String → Option String) (parse : String → List Reference)
    (teiDir : String) (arts : List Article) (i : Nat) (s : Session) :
    (List Edge × List Warning) × Session :=
  match (arts.getD i default_article).file with
  | none => (([], []), s)
  | some f =>
    match fs (tei_path teiDir f) with
    | none => (([], [Warning.teiNotFound (arts.getD i default_article).title]), s)
    | some content =>
      if content = "[NO_BLOCKS] PDF parsing resulted in empty content"
          ∨ content = "[BAD_INPUT_DATA] PDF to XML conversion failed with error code: 1" then
        (([], [Warning.teiEmpty (arts.getD i default_article).title]), s)
      else
        let p := refs_loop simFull simPart auto arts i (parse content) [] s
        ((p.1, []), p.2)

/- The outer edge loop over all source articles, accumulating edges and
warnings in order while threading the interactive session. -/
def edges_phase_go (simFull simPart : String → String → Nat) (auto : Bool)
    (fs : String → Option String) (parse : String → List Reference)
    (teiDir : String) (arts : List Article) :
    List Nat → List Edge × List Warning → Session → (List Edge × List Warning) × Session
  | [], acc, s => (acc, s)
  | i :: rest, acc, s =>
    let p := process_article simFull simPart auto fs parse teiDir arts i s
    edges_phase_go simFull simPart auto fs parse teiDir arts rest
      (acc.1 ++ p.1.1, acc.2 ++ p.1.2) p.2

/- Python min and max over a nonempty integer list. -/
def list_min : List Int → Int
  | [] => 0
  | x :: xs => xs.foldl min x

def list_max : List Int → Int
  | [] => 0
  | x :: xs => xs.foldl max x

/- Python range over integers, from lo to hi inclusive, unfolded into the
list of consecutive integers it yields. -/
def int_range_go (lo : Int) : Nat → List Int
  | 0 => []
  | n + 1 => lo :: int_range_go (lo + 1) n

def int_range (lo hi : Int) : List Int := int_range_go lo (hi + 1 - lo).toNat

/- build_graph_model of the source, on already-loaded bibliography data.
The first None failure point is min over an empty years list; the second
is the int() coercion of a None year inside the year grouping, which runs
over every article as soon as the year range is nonempty. Both abort the
whole build, modelled by the none result. The returned triple is the graph
handed to json.dump, the emitted warning records, and the final
interactive session state. -/
def build_graph_model (simFull simPart : String → String → Nat)
    (md5hex : String → String) (fs : String → Option String)
    (parse : String → List Reference) (teiDir : String)
    (original_bibtex_keys without_interactive_queries : Bool)
    (articles0 : List Article) (s0 : Session) :
    Option (Graph × List Warning × Session) :=
  let arts := apply_keys md5hex original_bibtex_keys articles0
  let years : List Int := arts.filterMap (fun a => a.year)
  if years = [] then none
  else if arts.all (fun a => a.year.isSome) then
    let p := edges_phase_go simFull simPart without_interactive_queries fs parse
      teiDir arts (List.range arts.length) ([], []) s0
    some (⟨years,
      (int_range (list_min years) (list_max years)).map (fun y =>
        (y, (arts.filter (fun a => decide (a.year = some y))).map (fun a => a.bibtex_key))),
      arts.map (fun a => ⟨a.title, find_author a.author, a.bibtex_key, a.year⟩),
      p.1.1⟩, p.1.2, p.2)
  else none

/- Concrete inputs used by the witness statements below. -/
def ex_articles : List Article :=
  [⟨"a", some "TA", "X", some 2020, none, some "fileA.pdf"⟩,
   ⟨"b", some "TB", "Y", some 2021, some "10.1/b1", none⟩]

def ex_fs : String → Option String :=
  fun p => if p = "tei/fileA.tei.xml" then some "content" else none

def ex_parse : String → List Reference :=
  fun c => if c = "content" then [⟨some "RT", some "10.1/b1", []⟩] else []

def ex_sim : String → String → Nat := fun _ _ => 0

def ex_ref : Reference := ⟨some "RT", some "10.1/b1", []⟩

/-- Claim C1: when DOI extraction succeeds on both fields with the same
nonempty result, citation_matching returns a match regardless of the
similarity functions, titles, author lists and interactivity mode. -/
theorem c1_doi_short_circuit (simFull simPart : String → String → Nat)
    (doi_art doi_ref title_art title_ref : Option String)
    (author_art authors_ref : List String) (auto : Bool) (s : Session)
    (d : String) (h1 : find_doi doi_art = some d) (h2 : find_doi doi_ref = some d)
    (hne : d ≠ "") :
    citation_matching simFull simPart doi_art doi_ref title_art title_ref
      author_art authors_ref auto s = (true, s) := by
  unfold citation_matching
  rw [h1, h2]
  simp

theorem c1_doi_short_circuit_witness :
    citation_matching ex_sim ex_sim (some "10.1234/abc") (some "10.1234/abc")
      (some "COMPLETELY DIFFERENT") (some "TITLES HERE") ["P"] ["Q"] false ⟨[], []⟩
      = (true, ⟨[], []⟩) :=
  c1_doi_short_circuit ex_sim ex_sim (some "10.1234/abc") (some "10.1234/abc")
    (some "COMPLETELY DIFFERENT") (some "TITLES HERE") ["P"] ["Q"] false ⟨[], []⟩
    "10.1234/abc" (by decide) (by decide) (by decide)

/-- Claim C2: when the DOI step does not decide the match and both titles
are strings, the decision follows the title-similarity thresholds over the
normalized titles: match when the titles match and the author score is at
least two, delegate to ask_user when the titles match but the score is
below two, delegate to ask_user in the ambiguous partial-ratio band, and
reject otherwise. -/
theorem c2_title_author_decision (simFull simPart : String → String → Nat)
    (doi_art doi_ref : Option String) (ta tr : String)
    (authA authR : List String) (auto : Bool) (s : Session)
    (hd : ¬ (find_doi doi_art = find_doi doi_ref ∧ (find_doi doi_art).isSome
      ∧ (find_doi doi_ref).isSome)) :
    ((90 < simFull (clean_title ta) (clean_title tr)
        ∨ (95 < simPart (clean_title ta) (clean_title tr)
            ∧ 70 < simFull (clean_title ta) (clean_title tr))) →
      2 ≤ (find_matching_authors simFull authA authR).1 →
      citation_matching simFull simPart doi_art doi_ref (some ta) (some tr)
        authA authR auto s = (true, s)) ∧
    ((90 < simFull (clean_title ta) (clean_title tr)
        ∨ (95 < simPart (clean_title ta) (clean_title tr)
            ∧ 70 < simFull (clean_title ta) (clean_title tr))) →
      ¬ 2 ≤ (find_matching_authors simFull authA authR).1 →
      citation_matching simFull simPart doi_art doi_ref (some ta) (some tr)
        authA authR auto s
        = ask_user auto (clean_title ta, clean_title tr, authA, authR) s) ∧
    (¬ (90 < simFull (clean_title ta) (clean_title tr)
        ∨ (95 < simPart (clean_title ta) (clean_title tr)
            ∧ 70 < simFull (clean_title ta) (clean_title tr))) →
      (90 < simPart (clean_title ta) (clean_title tr)
        ∧ 60 < simFull (clean_title ta) (clean_title tr)) →
      citation_matching simFull simPart doi_art doi_ref (some ta) (some tr)
        authA authR auto s
        = ask_user auto (clean_title ta, clean_title tr, authA, authR) s) ∧
    (¬ (90 < simFull (clean_title ta) (clean_title tr)
        ∨ (95 < simPart (clean_title ta) (clean_title tr)
            ∧ 70 < simFull (clean_title ta) (clean_title tr))) →
      ¬ (90 < simPart (clean_title ta) (clean_title tr)
        ∧ 60 < simFull (clean_title ta) (clean_title tr)) →
      citation_matching simFull simPart doi_art doi_ref (some ta) (some tr)
        authA authR auto s = (false, s)) := by
  refine ⟨?_, ?_, ?_, ?_⟩ <;> intro h1 h2 <;>
    simp only [citation_matching, if_neg hd]
  · rw [if_pos h1, if_pos h2]
  · rw [if_pos h1, if_neg h2]
  · rw [if_neg h1, if_pos h2]
  · rw [if_neg h1, if_neg h2]

theorem c2_title_author_decision_witness :
    citation_matching (fun _ _ => 100) (fun _ _ => 100) none none
      (some "A") (some "B") [] [] true ⟨[], []⟩
      = ask_user true (clean_title "A", clean_title "B", [], []) ⟨[], []⟩ :=
  (c2_title_author_decision (fun _ _ => 100) (fun _ _ => 100) none none
    "A" "B" [] [] true ⟨[], []⟩ (by decide)).2.1 (by decide) (by decide)

/-- Claim C3: in the fully automated mode ask_user answers false at once,
touching neither the answer cache nor the input stream. -/
theorem c3_auto_mode_always_false (q : Question) (s : Session) :
    ask_user true q s = (false, s) := by
  simp [ask_user]

/- Helper for C4: appending the fresh answer at the end of a cache that
misses the question makes the linear scan find exactly that answer. -/
theorem find_answer_append (q : Question) (a : Bool) :
    ∀ l, find_answer q l = none → find_answer q (l ++ [(q, a)]) = some a := by
  intro l
  induction l with
  | nil => intro _; simp [find_answer]
  | cons x xs ih =>
    intro h
    by_cases hx : x.1 = q
    · simp [find_answer, hx] at h
    · simp only [List.cons_append, find_answer, if_neg hx] at h ⊢
      exact ih h

/-- Claim C4: a cache hit returns the recorded answer with the session
untouched, and every ask_user call in interactive mode leaves its own
answer recorded under its question key, so a later call with an equal key
returns it without prompting. -/
theorem c4_memoized_answers (q : Question) (s : Session) (b : Bool) :
    (find_answer q s.user_answers = some b → ask_user false q s = (b, s)) ∧
    find_answer q ((ask_user false q s).2).user_answers
      = some (ask_user false q s).1 := by
  constructor
  · intro h
    simp [ask_user, h]
  · unfold ask_user
    cases hfa : find_answer q s.user_answers with
    | some a => simp [hfa]
    | none =>
      by_cases hy : s.pending_inputs.headD "" = "y"
      · simp only [Bool.false_eq_true, if_false, hfa, if_pos hy]
        exact find_answer_append q true _ hfa
      · simp only [Bool.false_eq_true, if_false, hfa, if_neg hy]
        exact find_answer_append q false _ hfa

theorem c4_memoized_answers_witness :
    ask_user false ("T1", "T2", ["A"], ["B"]) ⟨[(("T1", "T2", ["A"], ["B"]), true)], []⟩
      = (true, ⟨[(("T1", "T2", ["A"], ["B"]), true)], []⟩) ∧
    find_answer ("T1", "T2", ["A"], ["B"])
      ((ask_user false ("T1", "T2", ["A"], ["B"])
        ⟨[(("T1", "T2", ["A"], ["B"]), true)], []⟩).2).user_answers
      = some (ask_user false ("T1", "T2", ["A"], ["B"])
        ⟨[(("T1", "T2", ["A"], ["B"]), true)], []⟩).1 :=
  ⟨(c4_memoized_answers ("T1", "T2", ["A"], ["B"])
      ⟨[(("T1", "T2", ["A"], ["B"]), true)], []⟩ true).1 (by decide),
    (c4_memoized_answers ("T1", "T2", ["A"], ["B"])
      ⟨[(("T1", "T2", ["A"], ["B"]), true)], []⟩ true).2⟩

/- Helper: a decomposition of List.range n around one element gives the
position of that element and characterizes the members before it. -/
theorem range_decomp (n j : Nat) (pre post : List Nat)
    (h : List.range n = pre ++ j :: post) :
    j < n ∧ ∀ k, k ∈ pre ↔ k < j := by
  rw [List.range_eq_range'] at h
  obtain ⟨k, hk, hpre, hcons⟩ := List.range'_eq_append_iff.mp h
  rcases hm : n - k with _ | m
  · rw [hm] at hcons
    simp at hcons
  · rw [hm, List.range'_succ] at hcons
    obtain ⟨hj, -⟩ := List.cons.injEq .. ▸ hcons
    constructor
    · omega
    · intro k'
      rw [hpre]
      simp only [List.mem_range'_1]
      omega

/- Helper: the candidate loop of one reference appends at most one edge,
and any appended edge goes from the source to a candidate that the match
engine accepted, while every earlier non-skipped candidate of the scanned
index list was rejected by the engine in the session it was consulted. -/
theorem ref_edges_go_spec (simFull simPart : String → String → Nat) (auto : Bool)
    (arts : List Article) (i : Nat) (r : Reference) :
    ∀ (idxs : List Nat) (s : Session),
      (ref_edges_go simFull simPart auto arts i r idxs s).1.length ≤ 1 ∧
      ∀ e ∈ (ref_edges_go simFull simPart auto arts i r idxs s).1,
        ∃ pre j post s₁,
          idxs = pre ++ j :: post ∧
          title_identical arts i j = false ∧
          e = ⟨(arts.getD i default_article).bibtex_key,
               (arts.getD j default_article).bibtex_key⟩ ∧
          engine simFull simPart auto arts r j s₁
            = (true, (ref_edges_go simFull simPart auto arts i r idxs s).2) ∧
          ∀ k ∈ pre, title_identical arts i k = false →
            ∃ s₂, (engine simFull simPart auto arts r k s₂).1 = false := by
  intro idxs
  induction idxs with
  | nil =>
    intro s
    simp [ref_edges_go]
  | cons j0 rest ih =>
    intro s
    cases hskip : title_identical arts i j0 with
    | true =>
      have hred : ref_edges_go simFull simPart auto arts i r (j0 :: rest) s
          = ref_edges_go simFull simPart auto arts i r rest s := by
        simp [ref_edges_go, hskip]
      rw [hred]
      obtain ⟨hlen, hmem⟩ := ih s
      refine ⟨hlen, ?_⟩
      intro e he
      obtain ⟨pre, j, post, s₁, hdec, hnid, hedge, heng, hpre⟩ := hmem e he
      refine ⟨j0 :: pre, j, post, s₁, by rw [hdec]; rfl, hnid, hedge, heng, ?_⟩
      intro k hk hknid
      rcases List.mem_cons.mp hk with rfl | hk2
      · rw [hskip] at hknid
        exact absurd hknid (by simp)
      · exact hpre k hk2 hknid
    | false =>
      cases hres : engine simFull simPart auto arts r j0 s with
      | mk m s' =>
        cases m with
        | true =>
          have hred : ref_edges_go simFull simPart auto arts i r (j0 :: rest) s
              = ([⟨(arts.getD i default_article).bibtex_key,
                   (arts.getD j0 default_article).bibtex_key⟩], s') := by
            simp [ref_edges_go, hskip, hres]
          rw [hred]
          refine ⟨by simp, ?_⟩
          intro e he
          rw [List.mem_singleton] at he
          exact ⟨[], j0, rest, s, rfl, hskip, he, by rw [hres], by simp⟩
        | false =>
          have hred : ref_edges_go simFull simPart auto arts i r (j0 :: rest) s
              = ref_edges_go simFull simPart auto arts i r rest s' := by
            simp [ref_edges_go, hskip, hres]
          rw [hred]
          obtain ⟨hlen, hmem⟩ := ih s'
          refine ⟨hlen, ?_⟩
          intro e he
          obtain ⟨pre, j, post, s₁, hdec, hnid, hedge, heng, hpre⟩ := hmem e he
          refine ⟨j0 :: pre, j, post, s₁, by rw [hdec]; rfl, hnid, hedge, heng, ?_⟩
          intro k hk hknid
          rcases List.mem_cons.mp hk with rfl | hk2
          · exact ⟨s, by rw [hres]⟩
          · exact hpre k hk2 hknid

/-- Claim C6: for one extracted reference the candidate loop emits at most
one edge; an emitted edge points from the source to the first candidate,
in scan order, that the match engine accepted, every earlier non-skipped
candidate having been rejected in the session it was consulted with. -/
theorem c6_first_match_wins (simFull simPart : String → String → Nat)
    (auto : Bool) (arts : List Article) (i : Nat) (r : Reference) (s : Session) :
    (ref_edges simFull simPart auto arts i r s).1.length ≤ 1 ∧
    ∀ e ∈ (ref_edges simFull simPart auto arts i r s).1,
      ∃ j s₁, j < arts.length ∧ title_identical arts i j = false ∧
        e = ⟨(arts.getD i default_article).bibtex_key,
             (arts.getD j default_article).bibtex_key⟩ ∧
        engine simFull simPart auto arts r j s₁
          = (true, (ref_edges simFull simPart auto arts i r s).2) ∧
        ∀ k, k < j → title_identical arts i k = false →
          ∃ s₂, (engine simFull simPart auto arts r k s₂).1 = false := by
  obtain ⟨hlen, hmem⟩ :=
    ref_edges_go_spec simFull simPart auto arts i r (List.range arts.length) s
  refine ⟨hlen, ?_⟩
  intro e he
  obtain ⟨pre, j, post, s₁, hdec, hnid, hedge, heng, hpre⟩ := hmem e he
  obtain ⟨hjn, hiff⟩ := range_decomp arts.length j pre post hdec
  exact ⟨j, s₁, hjn, hnid, hedge, heng,
    fun k hk hknid => hpre k ((hiff k).mpr hk) hknid⟩

theorem c6_first_match_wins_witness :
    (ref_edges ex_sim ex_sim true ex_articles 0 ex_ref ⟨[], []⟩).1.length ≤ 1 ∧
    ∀ e ∈ (ref_edges ex_sim ex_sim true ex_articles 0 ex_ref ⟨[], []⟩).1,
      ∃ j s₁, j < ex_articles.length ∧ title_identical ex_articles 0 j = false ∧
        e = ⟨(ex_articles.getD 0 default_article).bibtex_key,
             (ex_articles.getD j default_article).bibtex_key⟩ ∧
        engine ex_sim ex_sim true ex_articles ex_ref j s₁
          = (true, (ref_edges ex_sim ex_sim true ex_articles 0 ex_ref ⟨[], []⟩).2) ∧
        ∀ k, k < j → title_identical ex_articles 0 k = false →
          ∃ s₂, (engine ex_sim ex_sim true ex_articles ex_ref k s₂).1 = false :=
  c6_first_match_wins ex_sim ex_sim true ex_articles 0 ex_ref ⟨[], []⟩

/- Helper: shape of any edge produced by the candidate loop of one
reference: it joins the source index to a candidate index of the scanned
list that is not title-identical to the source. -/
theorem ref_edges_shape (simFull simPart : String → String → Nat) (auto : Bool)
    (arts : List Article) (i : Nat) (r : Reference) (s : Session) :
    ∀ e ∈ (ref_edges simFull simPart auto arts i r s).1,
      ∃ j, j < arts.length ∧ title_identical arts i j = false ∧
        e = ⟨(arts.getD i default_article).bibtex_key,
             (arts.getD j default_article).bibtex_key⟩ := by
  intro e he
  obtain ⟨pre, j, post, s₁, hdec, hnid, hedge, -, -⟩ :=
    (ref_edges_go_spec simFull simPart auto arts i r (List.range arts.length) s).2 e he
  obtain ⟨hjn, -⟩ := range_decomp arts.length j pre post hdec
  exact ⟨j, hjn, hnid, hedge⟩

/- Helper: every edge accumulated by the reference loop of one document
either was already in the accumulator or was produced by the candidate
loop of one of the references, from some intermediate session. -/
theorem refs_loop_mem (simFull simPart : String → String → Nat) (auto : Bool)
    (arts : List Article) (i : Nat) :
    ∀ (rs : List Reference) (es : List Edge) (s : Session),
      ∀ e ∈ (refs_loop simFull simPart auto arts i rs es s).1,
        e ∈ es ∨ ∃ r' s', e ∈ (ref_edges simFull simPart auto arts i r' s').1 := by
  intro rs
  induction rs with
  | nil =>
    intro es s e he
    simp only [refs_loop] at he
    exact Or.inl he
  | cons r rest ih =>
    intro es s e he
    simp only [refs_loop] at he
    rcases ih _ _ e he with hmem | hnew
    · rcases List.mem_append.mp hmem with h1 | h2
      · exact Or.inl h1
      · exact Or.inr ⟨r, s, h2⟩
    · exact Or.inr hnew

/- Helper: every edge produced while processing one source article comes
from the candidate loop of one of its references, and only articles whose
file field is present produce edges at all. -/
theorem process_article_mem (simFull simPart : String → String → Nat) (auto : Bool)
    (fs : String → Option String) (parse : String → List Reference)
    (teiDir : String) (arts : List Article) (i : Nat) (s : Session) :
    ∀ e ∈ (process_article simFull simPart auto fs parse teiDir arts i s).1.1,
      (arts.getD i default_article).file ≠ none ∧
        ∃ r' s', e ∈ (ref_edges simFull simPart auto arts i r' s').1 := by
  intro e he
  rcases hfile : (arts.getD i default_article).file with _ | f
  · simp only [process_article, hfile] at he
    simp at he
  · simp only [process_article, hfile] at he
    rcases hfs : fs (tei_path teiDir f) with _ | content
    · simp only [hfs] at he
      simp at he
    · simp only [hfs] at he
      by_cases hsent : content = "[NO_BLOCKS] PDF parsing resulted in empty content"
          ∨ content = "[BAD_INPUT_DATA] PDF to XML conversion failed with error code: 1"
      · rw [if_pos hsent] at he
        simp at he
      · rw [if_neg hsent] at he
        simp only at he
        rcases refs_loop_mem simFull simPart auto arts i (parse content) [] s e he with
          habs | hnew
        · simp at habs
        · exact ⟨by simp [hfile], hnew⟩

/- Helper: every edge accumulated by the outer article loop either was
already in the accumulator or was produced while processing one of the
listed source indices, from some intermediate session. -/
theorem edges_phase_mem (simFull simPart : String → String → Nat) (auto : Bool)
    (fs : String → Option String) (parse : String → List Reference)
    (teiDir : String) (arts : List Article) :
    ∀ (idxs : List Nat) (acc : List Edge × List Warning) (s : Session),
      ∀ e ∈ (edges_phase_go simFull simPart auto fs parse teiDir arts idxs acc s).1.1,
        e ∈ acc.1 ∨ ∃ i ∈ idxs, ∃ s',
          e ∈ (process_article simFull simPart auto fs parse teiDir arts i s').1.1 := by
  intro idxs
  induction idxs with
  | nil =>
    intro acc s e he
    simp only [edges_phase_go] at he
    exact Or.inl he
  | cons i rest ih =>
    intro acc s e he
    simp only [edges_phase_go] at he
    rcases ih _ _ e he with hmem | ⟨i', hi', s', he'⟩
    · rcases List.mem_append.mp hmem with h1 | h2
      · exact Or.inl h1
      · exact Or.inr ⟨i, List.mem_cons_self i rest, s, h2⟩
    · exact Or.inr ⟨i', List.mem_cons_of_mem i hi', s', he'⟩

/- Helper: with pairwise distinct bibtex keys, articles at distinct valid
indices carry distinct keys. -/
theorem keys_distinct (arts : List Article)
    (hnodup : (arts.map (fun a => a.bibtex_key)).Nodup)
    (i j : Nat) (hi : i < arts.length) (hj : j < arts.length) (hij : i ≠ j) :
    (arts.getD i default_article).bibtex_key
      ≠ (arts.getD j default_article).bibtex_key := by
  rw [List.getD_eq_getElem arts default_article hi,
    List.getD_eq_getElem arts default_article hj]
  intro hkey
  apply hij
  have hi' : i < (arts.map (fun a => a.bibtex_key)).length := by simpa using hi
  have hj' : j < (arts.map (fun a => a.bibtex_key)).length := by simpa using hj
  have : (arts.map (fun a => a.bibtex_key))[i] = (arts.map (fun a => a.bibtex_key))[j] := by
    simpa using hkey
  exact (List.Nodup.getElem_inj_iff hnodup).mp this

/-- Claim C5: in every graph the builder completes, the source of each edge
differs from its target: the candidate loop skips the source itself, and
distinct articles carry distinct keys. -/
theorem c5_no_self_edges (simFull simPart : String → String → Nat)
    (md5hex : String → String) (fs : String → Option String)
    (parse : String → List Reference) (teiDir : String)
    (okeys auto : Bool) (articles0 : List Article) (s0 : Session)
    (g : Graph) (w : List Warning) (s1 : Session)
    (hnodup : ((apply_keys md5hex okeys articles0).map (fun a => a.bibtex_key)).Nodup)
    (hb : build_graph_model simFull simPart md5hex fs parse teiDir okeys auto
      articles0 s0 = some (g, w, s1)) :
    ∀ e ∈ g.edges, e.frm ≠ e.toKey := by
  simp only [build_graph_model] at hb
  split_ifs at hb with h1 h2
  have hg : g.edges = (edges_phase_go simFull simPart auto fs parse teiDir
      (apply_keys md5hex okeys articles0)
      (List.range (apply_keys md5hex okeys articles0).length) ([], []) s0).1.1 :=
    (congrArg (fun t => t.1.edges) (Option.some.inj hb)).symm
  intro e he
  rw [hg] at he
  rcases edges_phase_mem simFull simPart auto fs parse teiDir _ _ _ _ e he with
    habs | ⟨i, hi, s', he'⟩
  · simp at habs
  · obtain ⟨-, r', s'', he''⟩ :=
      process_article_mem simFull simPart auto fs parse teiDir _ i s' e he'
    obtain ⟨j, hjn, hnid, hedge⟩ :=
      ref_edges_shape simFull simPart auto _ i r' s'' e he''
    have hij : i ≠ j := by
      intro hcontra
      rw [title_identical, hcontra] at hnid
      simp at hnid
    rw [hedge]
    exact keys_distinct _ hnodup i j (List.mem_range.mp hi) hjn hij

theorem c5_no_self_edges_witness :
    (Edge.mk "a" "b").frm ≠ (Edge.mk "a" "b").toKey :=
  c5_no_self_edges ex_sim ex_sim id ex_fs ex_parse "tei" true true ex_articles
    ⟨[], []⟩ _ [] ⟨[], []⟩ (by decide) rfl (Edge.mk "a" "b") (by decide)

/- Helper: membership in the unfolded integer range. -/
theorem mem_int_range_go :
    ∀ (n : Nat) (lo y : Int), y ∈ int_range_go lo n ↔ lo ≤ y ∧ y < lo + n := by
  intro n
  induction n with
  | zero =>
    intro lo y
    simp only [int_range_go, List.not_mem_nil, false_iff]
    omega
  | succ m ih =>
    intro lo y
    simp only [int_range_go, List.mem_cons, ih]
    omega

/- Helper: membership in the inclusive integer range. -/
theorem mem_int_range (lo hi y : Int) : y ∈ int_range lo hi ↔ lo ≤ y ∧ y ≤ hi := by
  unfold int_range
  rw [mem_int_range_go]
  omega

/- Helper: the inclusive integer range has no duplicates. -/
theorem int_range_go_nodup : ∀ (n : Nat) (lo : Int), (int_range_go lo n).Nodup := by
  intro n
  induction n with
  | zero =>
    intro lo
    simp [int_range_go]
  | succ m ih =>
    intro lo
    simp only [int_range_go, List.nodup_cons]
    refine ⟨?_, ih (lo + 1)⟩
    intro hmem
    rw [mem_int_range_go] at hmem
    omega

theorem int_range_nodup (lo hi : Int) : (int_range lo hi).Nodup :=
  int_range_go_nodup _ _

/-- Claim C7: in every completed build, the year index carries exactly one
entry for every integer year between the minimum and maximum observed
year inclusive, and an entry whose year occurs on no article maps to the
empty list. -/
theorem c7_year_index_complete (simFull simPart : String → String → Nat)
    (md5hex : String → String) (fs : String → Option String)
    (parse : String → List Reference) (teiDir : String)
    (okeys auto : Bool) (articles0 : List Article) (s0 : Session)
    (g : Graph) (w : List Warning) (s1 : Session)
    (hb : build_graph_model simFull simPart md5hex fs parse teiDir okeys auto
      articles0 s0 = some (g, w, s1)) :
    (∀ y : Int, (list_min g.years ≤ y ∧ y ≤ list_max g.years)
      ↔ y ∈ g.year_arts.map Prod.fst) ∧
    (g.year_arts.map Prod.fst).Nodup ∧
    (∀ y ks, (y, ks) ∈ g.year_arts →
      (∀ ga ∈ g.articles, ga.year ≠ some y) → ks = []) := by
  simp only [build_graph_model] at hb
  split_ifs at hb with h1 h2
  have hyears : g.years
      = (apply_keys md5hex okeys articles0).filterMap (fun a => a.year) :=
    (congrArg (fun t => t.1.years) (Option.some.inj hb)).symm
  have hya : g.year_arts
      = (int_range (list_min g.years) (list_max g.years)).map (fun y =>
          (y, ((apply_keys md5hex okeys articles0).filter
            (fun a => decide (a.year = some y))).map (fun a => a.bibtex_key))) := by
    have := (congrArg (fun t => t.1.year_arts) (Option.some.inj hb)).symm
    rw [hyears]
    exact this
  have harts : g.articles = (apply_keys md5hex okeys articles0).map (fun a =>
      ⟨a.title, find_author a.author, a.bibtex_key, a.year⟩) :=
    (congrArg (fun t => t.1.articles) (Option.some.inj hb)).symm
  have hfst : g.year_arts.map Prod.fst = int_range (list_min g.years) (list_max g.years) := by
    rw [hya, List.map_map]
    show List.map (fun y => y) (int_range (list_min g.years) (list_max g.years)) = _
    exact List.map_id' _
  refine ⟨?_, ?_, ?_⟩
  · intro y
    rw [hfst, mem_int_range]
  · rw [hfst]
    exact int_range_nodup _ _
  · intro y ks hmem hnone
    rw [hya] at hmem
    obtain ⟨y', hy', hpair⟩ := List.mem_map.mp hmem
    have h1 : y' = y := congrArg Prod.fst hpair
    subst h1
    have h2 := congrArg Prod.snd hpair
    have hfilter : (apply_keys md5hex okeys articles0).filter
        (fun a => decide (a.year = some y')) = [] := by
      rw [List.filter_eq_nil_iff]
      intro a ha
      simp only [decide_eq_true_eq]
      intro hay
      exact hnone ⟨a.title, find_author a.author, a.bibtex_key, a.year⟩
        (by rw [harts]; exact List.mem_map.mpr ⟨a, ha, rfl⟩) hay
    have h2x : List.map (fun a => a.bibtex_key)
        ((apply_keys md5hex okeys articles0).filter
          (fun a => decide (a.year = some y'))) = ks := h2
    rw [← h2x, hfilter]
    rfl

theorem c7_year_index_complete_witness :
    (∀ y : Int,
      (list_min (Graph.mk [2010, 2013] [(2010, ["a"]), (2011, []), (2012, []), (2013, ["b"])]
        [⟨some "T1", ["X"], "a", some 2010⟩, ⟨some "T2", ["Y"], "b", some 2013⟩] []).years ≤ y
        ∧ y ≤ list_max (Graph.mk [2010, 2013]
            [(2010, ["a"]), (2011, []), (2012, []), (2013, ["b"])]
            [⟨some "T1", ["X"], "a", some 2010⟩, ⟨some "T2", ["Y"], "b", some 2013⟩] []).years)
      ↔ y ∈ (Graph.mk [2010, 2013] [(2010, ["a"]), (2011, []), (2012, []), (2013, ["b"])]
          [⟨some "T1", ["X"], "a", some 2010⟩, ⟨some "T2", ["Y"], "b", some 2013⟩] []).year_arts.map
          Prod.fst) ∧
    ((Graph.mk [2010, 2013] [(2010, ["a"]), (2011, []), (2012, []), (2013, ["b"])]
      [⟨some "T1", ["X"], "a", some 2010⟩, ⟨some "T2", ["Y"], "b", some 2013⟩] []).year_arts.map
      Prod.fst).Nodup ∧
    (∀ y ks, (y, ks) ∈ (Graph.mk [2010, 2013]
        [(2010, ["a"]), (2011, []), (2012, []), (2013, ["b"])]
        [⟨some "T1", ["X"], "a", some 2010⟩, ⟨some "T2", ["Y"], "b", some 2013⟩] []).year_arts →
      (∀ ga ∈ (Graph.mk [2010, 2013] [(2010, ["a"]), (2011, []), (2012, []), (2013, ["b"])]
        [⟨some "T1", ["X"], "a", some 2010⟩, ⟨some "T2", ["Y"], "b", some 2013⟩] []).articles,
        ga.year ≠ some y) → ks = []) :=
  c7_year_index_complete ex_sim ex_sim id ex_fs ex_parse "tei" true true
    [⟨"a", some "T1", "X", some 2010, none, none⟩, ⟨"b", some "T2", "Y", some 2013, none, none⟩]
    ⟨[], []⟩ _ [] ⟨[], []⟩ rfl

/- Helper: rewriting the bibtex keys leaves every year field unchanged. -/
theorem apply_keys_year_none (md5hex : String → String) (okeys : Bool)
    (articles0 : List Article) :
    (∀ a ∈ apply_keys md5hex okeys articles0, a.year = none)
      ↔ (∀ a ∈ articles0, a.year = none) := by
  cases okeys <;> simp [apply_keys]

theorem apply_keys_all_some (md5hex : String → String) (okeys : Bool)
    (articles0 : List Article) :
    ((apply_keys md5hex okeys articles0).all (fun a => a.year.isSome)
      = articles0.all (fun a => a.year.isSome)) := by
  cases okeys <;> simp [apply_keys, List.all_map]
  rfl

theorem apply_keys_eq_nil (md5hex : String → String) (okeys : Bool)
    (articles0 : List Article) :
    apply_keys md5hex okeys articles0 = [] ↔ articles0 = [] := by
  cases okeys <;> simp [apply_keys]

/-- Claim C10: the build completes exactly when the bibliography is
nonempty and every article carries a usable year; an empty year list or a
single missing year aborts the whole build. -/
theorem c10_year_precondition (simFull simPart : String → String → Nat)
    (md5hex : String → String) (fs : String → Option String)
    (parse : String → List Reference) (teiDir : String)
    (okeys auto : Bool) (articles0 : List Article) (s0 : Session) :
    (build_graph_model simFull simPart md5hex fs parse teiDir okeys auto
      articles0 s0).isSome
      ↔ (articles0 ≠ [] ∧ ∀ a ∈ articles0, a.year ≠ none) := by
  simp only [build_graph_model]
  split_ifs with h1 h2
  · simp only [Option.isSome_none, Bool.false_eq_true, false_iff]
    rintro ⟨hne, hall⟩
    rw [List.filterMap_eq_nil_iff] at h1
    rw [apply_keys_year_none] at h1
    rcases articles0 with _ | ⟨a0, rest⟩
    · exact hne rfl
    · exact hall a0 (List.mem_cons_self a0 rest) (h1 a0 (List.mem_cons_self a0 rest))
  · simp only [Option.isSome_some, true_iff]
    constructor
    · intro hnil
      apply h1
      rw [hnil] at h2 ⊢
      cases okeys <;> simp [apply_keys]
    · intro a ha
      rw [apply_keys_all_some] at h2
      rw [List.all_eq_true] at h2
      have := h2 a ha
      simp only [Option.isSome_iff_ne_none] at this
      exact this
  · simp only [Option.isSome_none, Bool.false_eq_true, false_iff]
    rintro ⟨-, hall⟩
    apply h2
    rw [apply_keys_all_some, List.all_eq_true]
    intro a ha
    simpa [Option.isSome_iff_ne_none] using hall a ha

theorem c10_year_precondition_witness :
    ((build_graph_model ex_sim ex_sim id ex_fs ex_parse "tei" true true
      [⟨"a", some "T", "X", none, none, none⟩] ⟨[], []⟩).isSome
      ↔ ([(⟨"a", some "T", "X", none, none, none⟩ : Article)] ≠ []
        ∧ ∀ a ∈ [(⟨"a", some "T", "X", none, none, none⟩ : Article)], a.year ≠ none)) :=
  c10_year_precondition ex_sim ex_sim id ex_fs ex_parse "tei" true true
    [⟨"a", some "T", "X", none, none, none⟩] ⟨[], []⟩

/-- Claim C8 counterexample: the separator word is not matched
case-insensitively. In the no-comma branch the mixed-case word And is not
a separator; at the end of the field it is itself captured as a surname,
while the preceding real surname is dropped, so the input Smith And
extracts the author list consisting of the single name And. -/
theorem c8_counterexample_mixed_case :
    find_author "Smith And" = ["And"] := rfl

/-- Claim C8 as amended: find_author splits on the separator word only in
its exact all-lowercase and all-uppercase spellings. A mixed-case And is
not a separator in either branch: no continuation makes the no-comma
separator alternatives accept a run starting with And, the comma-branch
prefix alternatives never accept And, and on concrete fields the
lowercase and uppercase spellings separate while the mixed-case spelling
loses names or is captured as a surname. -/
theorem c8_separator_case_exact :
    (∀ r : List Char, p1_sep_or_end (' ' :: 'A' :: 'n' :: 'd' :: ' ' :: r) = none) ∧
    (∀ r : List Char, p2_try_and ('A' :: 'n' :: 'd' :: r) = none) ∧
    find_author "Smith and Jones" = ["Smith", "Jones"] ∧
    find_author "Smith AND Jones" = ["Smith", "Jones"] ∧
    find_author "Smith And Jones" = ["Jones"] ∧
    find_author "Doe, John and Smith, Jane" = ["Doe", "Smith"] ∧
    find_author "Doe, John AND Smith, Jane" = ["Doe", "Smith"] ∧
    find_author "Doe, John And Smith, Jane" = ["Doe"] :=
  ⟨fun _ => rfl, fun _ => rfl, rfl, rfl, rfl, rfl, rfl, rfl⟩

/-- Claim C9 counterexample: an article whose file field is None is skipped
silently. A completed build over exactly that article emits an empty
warning list, not one warning record per skipped article. -/
theorem c9_counterexample_silent_skip :
    build_graph_model ex_sim ex_sim id ex_fs ex_parse "tei" true true
      [⟨"a", some "T", "X", some 2020, none, none⟩] ⟨[], []⟩
      = some (⟨[2020], [(2020, ["a"])],
          [⟨some "T", ["X"], "a", some 2020⟩], []⟩, [], ⟨[], []⟩) := rfl

/-- Claim C9 as amended: an article without a file field is skipped with
zero warnings and zero edges; an article whose TEI file is missing, or
whose TEI content is one of the two empty-parse sentinels, is skipped
with exactly one warning and zero edges; and every edge of the build
comes from an article whose file field is present, so skipped articles
never contribute edges while the loop continues over the others. -/
theorem c9_skip_behavior (simFull simPart : String → String → Nat) (auto : Bool)
    (fs : String → Option String) (parse : String → List Reference)
    (teiDir : String) (arts : List Article) (i : Nat) (s : Session) :
    ((arts.getD i default_article).file = none →
      process_article simFull simPart auto fs parse teiDir arts i s = (([], []), s)) ∧
    (∀ f, (arts.getD i default_article).file = some f →
      fs (tei_path teiDir f) = none →
      process_article simFull simPart auto fs parse teiDir arts i s
        = (([], [Warning.teiNotFound (arts.getD i default_article).title]), s)) ∧
    (∀ f c, (arts.getD i default_article).file = some f →
      fs (tei_path teiDir f) = some c →
      (c = "[NO_BLOCKS] PDF parsing resulted in empty content"
        ∨ c = "[BAD_INPUT_DATA] PDF to XML conversion failed with error code: 1") →
      process_article simFull simPart auto fs parse teiDir arts i s
        = (([], [Warning.teiEmpty (arts.getD i default_article).title]), s)) ∧
    (∀ (s0 : Session) (e : Edge),
      e ∈ (edges_phase_go simFull simPart auto fs parse teiDir arts
        (List.range arts.length) ([], []) s0).1.1 →
      ∃ i' s', i' < arts.length ∧ (arts.getD i' default_article).file ≠ none ∧
        e ∈ (process_article simFull simPart auto fs parse teiDir arts i' s').1.1) := by
  refine ⟨?_, ?_, ?_, ?_⟩
  · intro h
    simp only [process_article, h]
  · intro f hf hfs
    simp only [process_article, hf, hfs]
  · intro f c hf hfs hsent
    simp only [process_article, hf, hfs]
    rw [if_pos hsent]
  · intro s0 e he
    rcases edges_phase_mem simFull simPart auto fs parse teiDir arts _ _ _ e he with
      habs | ⟨i', hi', s', he'⟩
    · simp at habs
    · obtain ⟨hfile, -⟩ :=
        process_article_mem simFull simPart auto fs parse teiDir arts i' s' e he'
      exact ⟨i', s', List.mem_range.mp hi', hfile, he'⟩

theorem c9_skip_behavior_witness :
    process_article ex_sim ex_sim true ex_fs ex_parse "tei"
      [⟨"a", some "T", "X", some 2020, none, none⟩] 0 ⟨[], []⟩ = (([], []), ⟨[], []⟩) ∧
    process_article ex_sim ex_sim true (fun _ => none) ex_parse "tei"
      [⟨"b", some "U", "X", some 2020, none, some "doc.pdf"⟩] 0 ⟨[], []⟩
      = (([], [Warning.teiNotFound (some "U")]), ⟨[], []⟩) :=
  ⟨(c9_skip_behavior ex_sim ex_sim true ex_fs ex_parse "tei"
      [⟨"a", some "T", "X", some 2020, none, none⟩] 0 ⟨[], []⟩).1 rfl,
    (c9_skip_behavior ex_sim ex_sim true (fun _ => none) ex_parse "tei"
      [⟨"b", some "U", "X", some 2020, none, some "doc.pdf"⟩] 0 ⟨[], []⟩).2.1
      "doc.pdf" rfl rfl⟩

end Reviz
